import Mathlib

/-!
Verification development for the fare-search pipeline of `app.py`
(a Flask application querying the Ryanair fare API).

The pipeline (validation, route expansion, per-route fetch, fare
normalization, currency conversion, filtering, sorting, pagination) is
embedded shallowly:

* Upstream JSON values are modelled by the inductive type `J`; Python
  dictionary access (`dict.get`), truthiness (`if x:`) and the `x or y`
  idiom are modelled by `jLookup` / `jGetD` / `pyTruthy` / `pyOrJ`.
* Operations that raise a Python exception which propagates to the
  outer `try` of the request handler (attribute errors on non-dict
  values, `.upper()` on non-strings, unparsable dates in the round-trip
  path, `float()` of non-numeric values) are modelled as
  `Except.error ()`; entries the source skips with `continue` are
  modelled as `Except.ok none`.
* Strings are `List Char`; machine floats are modelled by `ℚ` with the
  fixed-rate table entered exactly (`4.30` = `43/10` and so on), and the
  2-decimal formatting `f"{x:.2f}"` is modelled by round-half-to-even
  at 2 decimals (`round2`); a `FareRecord.price` holds the rational
  value denoted by that formatted string.
* The network is a parameter `fetch : route → Except Unit J`; the
  request handler `indexPost` additionally returns the list of routes
  for which a network call was issued.
* CPython `list.sort` is stable and ascending in the key; it is
  embedded as the stable insertion sort `sortByPrice` keyed on the
  numeric value of the formatted price, exactly the key
  `float(x["price"])` used by the source.

Scope notes, stated once here: numeric strings accepted by Python
`float()` and non-ASCII case mapping are outside the modelled input
space (the upstream API sends JSON numbers and ASCII currency codes);
iterating a non-empty string or dict where the source expects a list
raises on the first element and is modelled as an error.
-/

/-- Strings of the source are modelled as lists of characters. -/
abbrev S : Type := List Char

/-- Upstream JSON values (the result of `r.json()` and its parts). -/
inductive J : Type where
  | null : J
  | bool : Bool → J
  | num : ℚ → J
  | str : S → J
  | arr : List J → J
  | obj : List (S × J) → J

/-- Association-list lookup used to model Python dictionary access. -/
def lookupField : List (S × J) → S → Option J
  | [], _ => none
  | (k0, v) :: rest, k => if k0 = k then some v else lookupField rest k

/-- `d.get(k)` on a dict-shaped value; `none` both when the key is absent
and when the receiver is not a dict (callers guard the latter). -/
def jLookup (j : J) (k : S) : Option J :=
  match j with
  | J.obj fs => lookupField fs k
  | _ => none

/-- `d.get(k, default)`. -/
def jGetD (j : J) (k : S) (d : J) : J := (jLookup j k).getD d

/-- Python truthiness of a JSON value. -/
def pyTruthy : J → Bool
  | J.null => false
  | J.bool b => b
  | J.num q => decide (q ≠ 0)
  | J.str s => decide (s ≠ [])
  | J.arr l => !l.isEmpty
  | J.obj l => !l.isEmpty

/-- `x is None` for the result of a `dict.get` without default:
true when the key is absent or its value is JSON null. -/
def pyIsNoneOpt : Option J → Bool
  | none => true
  | some J.null => true
  | some _ => false

/-- The Python idiom `a or b` on JSON values. -/
def pyOrJ (a b : J) : J := if pyTruthy a then a else b

/-- Decidable equality for `Except` results, used to state concrete
evaluations of the normalizers. -/
instance exceptDecEq {e a : Type} [DecidableEq e] [DecidableEq a] : DecidableEq (Except e a) :=
  fun x y =>
    match x, y with
    | .ok u, .ok v => decidable_of_iff (u = v) (by simp)
    | .error u, .error v => decidable_of_iff (u = v) (by simp)
    | .ok _, .error _ => isFalse (fun h => Except.noConfusion h)
    | .error _, .ok _ => isFalse (fun h => Except.noConfusion h)

/-- `x is None` on a JSON value. -/
def isNullJ : J → Bool
  | J.null => true
  | _ => false

/-- Key strings of the upstream schema. -/
def kUnavailable : S := ("unavailable").data
def kDay : S := ("day").data
def kPrice : S := ("price").data
def kValue : S := ("value").data
def kAmount : S := ("amount").data
def kCurrencyCode : S := ("currencyCode").data
def kCurrency : S := ("currency").data
def kOutbound : S := ("outbound").data
def kInbound : S := ("inbound").data
def kFares : S := ("fares").data
def kTrips : S := ("trips").data
def kSummary : S := ("summary").data
def kDepartureDate : S := ("departureDate").data
def kDate : S := ("date").data

/-- ASCII upper-casing, modelling `str.upper()` on currency codes. -/
def upperS (s : S) : S := s.map Char.toUpper

/-- `str.strip()`: drop whitespace from both ends. -/
def pyStrip (s : S) : S :=
  ((s.dropWhile Char.isWhitespace).reverse.dropWhile Char.isWhitespace).reverse

/-- Split a character list at every occurrence of `sep`
(the semantics of Python `str.split(sep)` for a one-character separator). -/
def splitOnChar (sep : Char) : List Char → List (List Char)
  | [] => [[]]
  | c :: cs =>
    let r := splitOnChar sep cs
    if c = sep then [] :: r
    else
      match r with
      | [] => [[c]]
      | p :: ps => (c :: p) :: ps

/-- Nonempty and all decimal digits (`str.isdigit` restricted to ASCII). -/
def isDigitString (s : S) : Bool := decide (s ≠ []) && s.all Char.isDigit

/-- Decimal value of a digit string. -/
def digitsToNat (s : S) : ℕ := s.foldl (fun a c => 10 * a + (c.toNat - 48)) 0

/-- Python `int(s)` on an optionally signed decimal string
(whitespace stripped; underscores and other Python spellings are
outside the modelled input space). -/
def pyIntS (s : S) : Option ℤ :=
  let t := pyStrip s
  match t with
  | '-' :: rest => if isDigitString rest then some (-(digitsToNat rest : ℤ)) else none
  | '+' :: rest => if isDigitString rest then some ((digitsToNat rest : ℤ)) else none
  | _ => if isDigitString t then some ((digitsToNat t : ℤ)) else none

/-- Python `int` of an optional form field: `int(None)` raises, which the
source catches as a validation failure, hence `none`. -/
def pyIntOpt : Option S → Option ℤ
  | none => none
  | some s => pyIntS s

/-- Value of an unsigned decimal literal `digits[.digits]` as a rational:
`intpart + fracpart / 10^len`, built with `mkRat` so that concrete
instances evaluate. -/
def decValue (ip fp : S) : ℚ :=
  mkRat ((digitsToNat ip * 10 ^ fp.length + digitsToNat fp : ℕ) : ℤ) (10 ^ fp.length)

/-- Python `float(s)` on plain decimal notation (`12`, `12.5`, `.5`, `5.`,
optionally signed). Exponent/infinity spellings are outside the
modelled input space. -/
def pyFloatS (s : S) : Option ℚ :=
  let t := pyStrip s
  let core : S → Option ℚ := fun u =>
    match splitOnChar ('.') u with
    | [ip] => if isDigitString ip then some (decValue ip []) else none
    | [ip, fp] =>
      if (ip.all Char.isDigit && fp.all Char.isDigit) && decide (ip ≠ [] ∨ fp ≠ []) then
        some (decValue ip fp)
      else none
    | _ => none
  match t with
  | '-' :: rest => (core rest).map (fun q => -q)
  | '+' :: rest => core rest
  | _ => core t

/-- A calendar date as produced by `datetime.date`. -/
structure Date where
  year : ℕ
  month : ℕ
  day : ℕ
deriving DecidableEq, Repr

/-- Gregorian leap year. -/
def isLeap (y : ℕ) : Bool := y % 4 = 0 && (y % 100 ≠ 0 || y % 400 = 0)

/-- Days in a month. -/
def daysInMonth (y m : ℕ) : ℕ :=
  if m = 2 then (if isLeap y then 29 else 28)
  else if m = 4 ∨ m = 6 ∨ m = 9 ∨ m = 11 then 30
  else 31

/-- `datetime.strptime(s, "%Y-%m-%d").date()`: exactly three dash-separated
all-digit fields (year 1–4 digits, month and day 1–2 digits), with the
range checks `datetime` performs; the whole string must be consumed, so
a trailing time component makes the parse fail. -/
def strptimeYMD (s : S) : Option Date :=
  match splitOnChar ('-') s with
  | [ys, ms, ds] =>
    if isDigitString ys && decide (ys.length ≤ 4) &&
       isDigitString ms && decide (ms.length ≤ 2) &&
       isDigitString ds && decide (ds.length ≤ 2) then
      let y := digitsToNat ys
      let m := digitsToNat ms
      let d := digitsToNat ds
      if (1 ≤ y && y ≤ 9999) && (1 ≤ m && m ≤ 12) && (1 ≤ d && d ≤ daysInMonth y m) then
        some ⟨y, m, d⟩
      else none
    else none
  | _ => none

/-- Strict date order on `Date` (the order of `datetime.date`). -/
def dateLt (a b : Date) : Bool :=
  if a.year < b.year then true
  else if b.year < a.year then false
  else if a.month < b.month then true
  else if b.month < a.month then false
  else decide (a.day < b.day)

/-- `date.weekday()` (Monday = 0 … Sunday = 6), via Zeller's congruence. -/
def pyWeekday (dt : Date) : ℕ :=
  let m := if dt.month ≤ 2 then dt.month + 12 else dt.month
  let y := if dt.month ≤ 2 then dt.year - 1 else dt.year
  let kk := y % 100
  let jj := y / 100
  ((dt.day + (13 * (m + 1)) / 5 + kk + kk / 4 + jj / 4 + 5 * jj) % 7 + 5) % 7

/-- `parse_iso_date` of the source (`app.py` lines 161–163): `None` on a
falsy argument, otherwise truncate at the first `T` and parse strictly;
a failing parse raises (the function does not catch), as does `.split`
on a non-string. -/
def parse_iso_date (d : J) : Except Unit (Option Date) :=
  if pyTruthy d then
    match d with
    | J.str s =>
      match strptimeYMD (s.takeWhile (fun c => c ≠ ('T'))) with
      | some dt => .ok (some dt)
      | none => .error ()
    | _ => .error ()
  else .ok none

/-- The rational value denoted by `f"{x:.2f}"`, i.e. the result of
parsing the 2-decimal formatted string back to a number: `q` rounded
to the nearest multiple of 1/100, ties to even (the rounding IEEE
formatting applies). Computed on the numerator and denominator so that
concrete instances evaluate: with `n/d = 100·q` and `f = ⌊100·q⌋`,
round up exactly when the remainder exceeds half of `d`. -/
def round2 (q : ℚ) : ℚ :=
  let n : ℤ := q.num * 100
  let d : ℤ := (q.den : ℤ)
  let f : ℤ := n.fdiv d
  let rem : ℤ := n - f * d
  let r : ℤ :=
    if 2 * rem < d then f
    else if d < 2 * rem then f + 1
    else if f % 2 = 0 then f else f + 1
  mkRat r 100

/-- Currency codes used by the source. -/
def eurS : S := ("EUR").data
def plnS : S := ("PLN").data
def gbpS : S := ("GBP").data

/-- The fixed-rate table `FX` of the source, with the decimal literals
entered exactly (`4.30` = `43/10`, `0.86` = `86/100`). -/
def FX (a b : S) : Option ℚ :=
  if a = eurS ∧ b = plnS then some (43/10)
  else if a = plnS ∧ b = eurS then some (10/43)
  else if a = eurS ∧ b = gbpS then some (86/100)
  else if a = gbpS ∧ b = eurS then some (100/86)
  else if a = plnS ∧ b = gbpS then some ((10/43) * (86/100))
  else if a = gbpS ∧ b = plnS then some ((100/86) * (43/10))
  else none

/-- Python `float(x)` on a JSON value: numbers and booleans convert;
anything else raises (numeric strings are outside the modelled input
space, see the header). -/
def pyFloat : J → Except Unit ℚ
  | J.num q => .ok q
  | J.bool b => .ok (if b then 1 else 0)
  | _ => .error ()

/-- `convert_price` of the source: identity on the same currency,
multiply by the table rate when present, `None` when the pair is
absent from the table (in which case `float` is never evaluated). -/
def convert_price (amount : J) (from_cur to_cur : S) : Except Unit (Option ℚ) :=
  if from_cur = to_cur then
    match pyFloat amount with
    | .error e => .error e
    | .ok a => .ok (some a)
  else
    match FX from_cur to_cur with
    | some rate =>
      match pyFloat amount with
      | .error e => .error e
      | .ok a => .ok (some (a * rate))
    | none => .ok none

/-- The canonical fare record appended to `results`. `price` holds the
rational value of the 2-decimal formatted price string, so comparing
and sorting on it is exactly comparing `float(x["price"])`. -/
structure FareRecord where
  route : S
  out_date : Date
  in_date : Option Date
  price : ℚ
  currency : S
deriving DecidableEq, Repr

/-- The `"DEP → ARR"` route label. -/
def mkRoute (dep arr : S) : S := dep ++ (" → ").data ++ arr

/-- The outbound-weekday filter test: skip when a filter is set and the
weekday differs. -/
def weekdaySkip (wanted : Option ℕ) (d : Date) : Bool :=
  match wanted with
  | some w => decide (pyWeekday d ≠ w)
  | none => false

/-- The common tail of both normalizers (`app.py` lines 324–329 and
367–370): convert the price, then apply the max-price filter. The
source's fallback `raw_price if raw_curr == currency else None` when
conversion returns `None` is unreachable — `convert_price` is total on
a same-currency pair — so the `None` case collapses to a skip. -/
def applyPriceFilters (currency : S) (maxPrice : Option ℚ) (pj : J) (raw_curr : S) :
    Except Unit (Option ℚ) :=
  match convert_price pj raw_curr currency with
  | .error e => .error e
  | .ok none => .ok none
  | .ok (some eff) =>
    match maxPrice with
    | some mp => if mp < eff then .ok none else .ok (some eff)
    | none => .ok (some eff)

/-- The availability gate of the one-way loop (`app.py` line 302):
`fare.get("unavailable", True) or fare.get("price") is None`.
Note the default `True`: an entry without an `unavailable` field is
treated as unavailable. -/
def oneWayAvailSkip (fare : J) : Bool :=
  pyTruthy (jGetD fare kUnavailable (J.bool true)) || pyIsNoneOpt (jLookup fare kPrice)

/-- `price_obj.get("currencyCode", currency).upper()` (`app.py` line 313):
default to the requested currency when the key is absent; a present
non-string value makes `.upper()` raise. -/
def oneWayRawCurr (pobj : J) (currency : S) : Except Unit S :=
  match jLookup pobj kCurrencyCode with
  | none => .ok (upperS currency)
  | some (J.str s) => .ok (upperS s)
  | some _ => .error ()

/-- Everything the one-way loop body does after the availability gate
(`app.py` lines 305–337): require a truthy `day`, extract the price
object and currency, parse the date strictly (the bare `except`
around `strptime` turns any parse failure, including a non-string
`day`, into a skip), then filter and build the record. -/
def oneWayRest (currency : S) (wanted : Option ℕ) (maxPrice : Option ℚ)
    (dep arr : S) (fare : J) : Except Unit (Option FareRecord) :=
  let day_j := jGetD fare kDay J.null
  if pyTruthy day_j then
    match jGetD fare kPrice (J.obj []) with
    | J.obj pf =>
      let raw_price := jLookup (J.obj pf) kValue
      match oneWayRawCurr (J.obj pf) currency with
      | .error e => .error e
      | .ok raw_curr =>
        match day_j with
        | J.str s =>
          match strptimeYMD s with
          | none => .ok none
          | some d =>
            match raw_price with
            | none => .ok none
            | some pj =>
              if isNullJ pj then .ok none
              else if weekdaySkip wanted d then .ok none
              else
                match applyPriceFilters currency maxPrice pj raw_curr with
                | .error e => .error e
                | .ok none => .ok none
                | .ok (some eff) =>
                  .ok (some { route := mkRoute dep arr, out_date := d, in_date := none,
                              price := round2 eff, currency := currency })
        | _ => .ok none
    | _ => .error ()
  else .ok none

/-- The one-way loop body for a single raw fare entry
(`app.py` lines 300–337); `.ok none` is a skip, `.error` an exception
propagating to the outer handler. -/
def normalizeOneWayFare (currency : S) (wanted : Option ℕ) (maxPrice : Option ℚ)
    (dep arr : S) (fare : J) : Except Unit (Option FareRecord) :=
  match fare with
  | J.obj _ =>
    if oneWayAvailSkip fare then .ok none
    else oneWayRest currency wanted maxPrice dep arr fare
  | _ => .error ()

/-- One-way envelope extraction (`app.py` lines 296–298):
`data.get("outbound", {}).get("fares", [])`. Only this single envelope
shape is consulted. Empty strings and dicts iterate zero times;
other non-list shapes raise on the first iteration. -/
def extractOneWayFareList (data : J) : Except Unit (List J) :=
  match data with
  | J.obj _ =>
    match jGetD data kOutbound (J.obj []) with
    | J.obj ofs =>
      match jGetD (J.obj ofs) kFares (J.arr []) with
      | J.arr xs => .ok xs
      | J.str [] => .ok []
      | J.obj [] => .ok []
      | _ => .error ()
    | _ => .error ()
  | _ => .error ()

/-- `out.get(k) if out else None` for a round-trip leg (`app.py`
lines 357–358); `out` is the raw value of the `outbound`/`inbound`
key (`none` when absent). -/
def legField (leg : Option J) (k : S) : Except Unit J :=
  match leg with
  | none => .ok J.null
  | some v =>
    if pyTruthy v then
      match v with
      | J.obj _ => .ok (jGetD v k J.null)
      | _ => .error ()
    else .ok J.null

/-- `parse_iso_date(leg.get("departureDate") …) or parse_iso_date(leg.get("date") …)`
with Python `or` short-circuiting. -/
def legDate (leg : Option J) : Except Unit (Option Date) :=
  match legField leg kDepartureDate with
  | .error e => .error e
  | .ok a =>
    match parse_iso_date a with
    | .error e => .error e
    | .ok (some d) => .ok (some d)
    | .ok none =>
      match legField leg kDate with
      | .error e => .error e
      | .ok b => parse_iso_date b

/-- Extract `(price, raw_curr)` from a single price object `p`
(`value` falling back to `amount`, `currencyCode` to `currency` to the
requested code, all with Python `or` truthiness; the final `.upper()`
raises on a non-string). -/
def priceFromObj (p : J) (currency : S) : Except Unit (J × S) :=
  match p with
  | J.obj _ =>
    let price := pyOrJ (jGetD p kValue J.null) (jGetD p kAmount J.null)
    match pyOrJ (jGetD p kCurrencyCode J.null) (pyOrJ (jGetD p kCurrency J.null) (J.str currency)) with
    | J.str s => .ok (price, upperS s)
    | _ => .error ()
  | _ => .error ()

/-- Round-trip price extraction (`app.py` lines 361–365): a truthy
top-level `price` wins, else a truthy `summary.price`; otherwise the
price stays `None` (`J.null`). -/
def rtPrice (combo : J) (currency : S) : Except Unit (J × S) :=
  let pv := jGetD combo kPrice J.null
  if pyTruthy pv then priceFromObj pv currency
  else
    let sv := jGetD combo kSummary J.null
    if pyTruthy sv then
      match sv with
      | J.obj _ =>
        let sp := jGetD sv kPrice J.null
        if pyTruthy sp then priceFromObj sp currency
        else .ok (J.null, currency)
      | _ => .error ()
    else .ok (J.null, currency)

/-- The round-trip loop body for a single fare combination
(`app.py` lines 355–376). -/
def normalizeRoundTripFare (currency : S) (wanted : Option ℕ) (maxPrice : Option ℚ)
    (dep arr : S) (combo : J) : Except Unit (Option FareRecord) :=
  match combo with
  | J.obj _ =>
    match legDate (jLookup combo kOutbound) with
    | .error e => .error e
    | .ok od? =>
      match legDate (jLookup combo kInbound) with
      | .error e => .error e
      | .ok id? =>
        match od?, id? with
        | some od, some idt =>
          if weekdaySkip wanted od then .ok none
          else
            match rtPrice combo currency with
            | .error e => .error e
            | .ok (pj, raw_curr) =>
              if isNullJ pj then .ok none
              else
                match applyPriceFilters currency maxPrice pj raw_curr with
                | .error e => .error e
                | .ok none => .ok none
                | .ok (some eff) =>
                  .ok (some { route := mkRoute dep arr, out_date := od, in_date := some idt,
                              price := round2 eff, currency := currency })
        | _, _ => .ok none
  | _ => .error ()

/-- Round-trip envelope extraction (`app.py` line 354):
`data.get("fares") or data.get("trips") or []`. -/
def extractRoundTripFareList (data : J) : Except Unit (List J) :=
  match data with
  | J.obj _ =>
    match pyOrJ (jGetD data kFares J.null) (pyOrJ (jGetD data kTrips J.null) (J.arr [])) with
    | J.arr xs => .ok xs
    | J.str [] => .ok []
    | J.obj [] => .ok []
    | _ => .error ()
  | _ => .error ()

/-- Run a per-entry normalizer over a raw fare list, appending the
produced records in upstream list order (the loop appends to `results`). -/
def collectFares (f : J → Except Unit (Option FareRecord)) : List J → Except Unit (List FareRecord)
  | [] => .ok []
  | x :: xs =>
    match f x with
    | .error e => .error e
    | .ok r =>
      match collectFares f xs with
      | .error e => .error e
      | .ok rest => .ok (r.toList ++ rest)

/-- Process one route of the one-way branch from its fetched body. -/
def processOneWayRoute (currency : S) (wanted : Option ℕ) (maxPrice : Option ℚ)
    (r : S × S) (data : J) : Except Unit (List FareRecord) :=
  match extractOneWayFareList data with
  | .error e => .error e
  | .ok fares => collectFares (normalizeOneWayFare currency wanted maxPrice r.1 r.2) fares

/-- Process one route of the round-trip branch from its fetched body. -/
def processRoundTripRoute (currency : S) (wanted : Option ℕ) (maxPrice : Option ℚ)
    (r : S × S) (data : J) : Except Unit (List FareRecord) :=
  match extractRoundTripFareList data with
  | .error e => .error e
  | .ok fares => collectFares (normalizeRoundTripFare currency wanted maxPrice r.1 r.2) fares

/-- The sequential route loop under the handler's single `try`: visit
routes in order, fetch each, process it, and concatenate the records;
the first exception aborts, discarding everything collected so far.
The second component records which routes were actually fetched. -/
def runSearchTrace (proc : S × S → J → Except Unit (List FareRecord))
    (fetch : S × S → Except Unit J) : List (S × S) → Except Unit (List FareRecord) × List (S × S)
  | [] => (.ok [], [])
  | r :: rs =>
    match fetch r with
    | .error e => (.error e, [r])
    | .ok data =>
      match proc r data with
      | .error e => (.error e, [r])
      | .ok fs =>
        match runSearchTrace proc fetch rs with
        | (.error e, tr) => (.error e, r :: tr)
        | (.ok rest, tr) => (.ok (fs ++ rest), r :: tr)

/-- Stable insertion keyed on the numeric price: a new record is placed
before the first existing record of greater-or-equal key, so records
processed earlier stay ahead of equal-priced later ones. -/
def insertByPrice (x : FareRecord) : List FareRecord → List FareRecord
  | [] => [x]
  | y :: ys => if x.price ≤ y.price then x :: y :: ys else y :: insertByPrice x ys

/-- `results.sort(key=lambda x: float(x["price"]))`: CPython sort is a
stable ascending sort on the key; embedded as stable insertion sort. -/
def sortByPrice : List FareRecord → List FareRecord
  | [] => []
  | x :: xs => insertByPrice x (sortByPrice xs)

/-- The page structure handed to the template (`app.py` lines 387–392). -/
structure ResultPage where
  items : List FareRecord
  page : ℕ
  total_pages : ℕ
  total : ℕ
deriving DecidableEq, Repr

/-- Pagination (`app.py` lines 387–392): `total_pages = max(1,
ceil(total/48))` and the requested page clamped into `[1, total_pages]`,
then the 48-wide slice. `math.ceil(total / 48)` on a float is exact for
every reachable list length and is embedded as `(total + 47) / 48` on ℕ. -/
def paginate (rs : List FareRecord) (page : ℕ) : ResultPage :=
  let total := rs.length
  let total_pages := max 1 ((total + 47) / 48)
  let p := min (max 1 page) total_pages
  { items := (rs.drop ((p - 1) * 48)).take 48,
    page := p, total_pages := total_pages, total := total }

/-- The slice of reference data the validation logic reads: the IATA
code and the country code of each airport. -/
structure Airport where
  code : S
  country_code : S
deriving DecidableEq, Repr

/-- Lexicographic strict order on character lists (Python string `<`). -/
def lexLt : S → S → Bool
  | [], [] => false
  | [], _ :: _ => true
  | _ :: _, [] => false
  | a :: as_, b :: bs =>
    if a.toNat < b.toNat then true
    else if b.toNat < a.toNat then false
    else lexLt as_ bs

/-- Insertion for `sortCodes`. -/
def insertCode (x : S) : List S → List S
  | [] => [x]
  | y :: ys => if lexLt y x then y :: insertCode x ys else x :: y :: ys

/-- `sorted({...})` on airport codes: duplicates removed, ascending. -/
def sortCodes (l : List S) : List S :=
  (l.dedup).foldr insertCode []

/-- The POST form fields read by the handler; `none` is an absent field
(`request.form.get` returning `None`), the lists come from `getlist`. -/
structure Form where
  departures : List S
  departure_country : Option S
  arrival : Option S
  arrival_countries : List S
  date_from : Option S
  date_to : Option S
  currency : Option S
  max_price : Option S
  one_way_only : Option S
  min_stay : Option S
  max_stay : Option S
  out_weekday : Option S
  page : Option S

/-- The validation errors the handler can append, in source order; the
rendered message strings are presentation and are abstracted to tags
(`invalidDepAirports` keeps the offending codes the message lists). -/
inductive VErr : Type where
  | noDepCountryAirports : VErr
  | noDepSelection : VErr
  | invalidDepAirports : List S → VErr
  | noArrCountryAirports : VErr
  | noArrSelection : VErr
  | invalidArrival : VErr
  | datesInverted : VErr
  | invalidDates : VErr
  | stayNotPositive : VErr
  | stayInverted : VErr
  | stayInvalid : VErr
  | maxPriceNotPositive : VErr
  | maxPriceNaN : VErr
deriving DecidableEq, Repr

/-- Everything the validation phase (`app.py` lines 191–279) computes
before any network access. -/
structure Prep where
  errors : List VErr
  dep_airports : List S
  dest_airports : List S
  d_from : Option Date
  d_to : Option Date
  min_stay : Option ℤ
  max_stay : Option ℤ
  max_price : Option ℚ
  one_way : Bool
  currency : S
  wanted : Option ℕ
  page : ℕ

def onS : S := ("on").data
def oneS : S := ("1").data

/-- The validation phase of the handler (`app.py` lines 191–279),
translated block by block: departure selection (country wins),
arrival selection (countries win), dates, stay, max price; plus the
pure field decodes (currency default/upper, one-way flag, weekday
filter, page number). -/
def validateAndPrepare (airports : List Airport) (form : Form) : Prep :=
  let valid_codes := airports.map (fun a => a.code)
  let dep_country := pyStrip ((form.departure_country).getD [])
  let depPair : List VErr × List S :=
    if dep_country ≠ [] then
      let da := sortCodes ((airports.filter (fun a => a.country_code = dep_country)).map (fun a => a.code))
      (if da = [] then [VErr.noDepCountryAirports] else [], da)
    else if form.departures = [] then ([VErr.noDepSelection], [])
    else
      let bad := form.departures.filter (fun d => decide (d ∉ valid_codes))
      ((if bad ≠ [] then [VErr.invalidDepAirports bad] else []), form.departures)
  let arrPair : List VErr × List S :=
    if form.arrival_countries ≠ [] then
      let da := sortCodes ((airports.filter (fun a => decide (a.country_code ∈ form.arrival_countries))).map (fun a => a.code))
      (if da = [] then [VErr.noArrCountryAirports] else [], da)
    else
      match form.arrival with
      | none => ([VErr.noArrSelection], [])
      | some arr =>
        if arr = [] then ([VErr.noArrSelection], [])
        else if decide (arr ∉ valid_codes) then ([VErr.invalidArrival], [])
        else ([], [arr])
  let datesTriple : List VErr × Option Date × Option Date :=
    match form.date_from, form.date_to with
    | some fs, some ts =>
      match strptimeYMD fs, strptimeYMD ts with
      | some df, some dt =>
        ((if dateLt dt df then [VErr.datesInverted] else []), some df, some dt)
      | _, _ => ([VErr.invalidDates], none, none)
    | _, _ => ([VErr.invalidDates], none, none)
  let one_way := form.one_way_only = some onS
  let stayTriple : List VErr × Option ℤ × Option ℤ :=
    if one_way then ([], none, none)
    else
      match pyIntOpt form.min_stay with
      | none => ([VErr.stayInvalid], none, none)
      | some mn =>
        match pyIntOpt form.max_stay with
        | none => ([VErr.stayInvalid], some mn, none)
        | some mx =>
          ((if mn ≤ 0 ∨ mx ≤ 0 then [VErr.stayNotPositive] else []) ++
           (if mx < mn then [VErr.stayInverted] else []), some mn, some mx)
  let mpS := pyStrip ((form.max_price).getD [])
  let mpPair : List VErr × Option ℚ :=
    if mpS ≠ [] then
      match pyFloatS (mpS.map (fun c => if c = (',') then ('.') else c)) with
      | some v => ((if v ≤ 0 then [VErr.maxPriceNotPositive] else []), some v)
      | none => ([VErr.maxPriceNaN], none)
    else ([], none)
  let currency := upperS (match form.currency with
    | none => eurS
    | some c => if c = [] then eurS else c)
  let wanted := if isDigitString ((form.out_weekday).getD []) then
      some (digitsToNat ((form.out_weekday).getD []))
    else none
  let pageS := match form.page with
    | none => oneS
    | some s => if s = [] then oneS else s
  let page := match pyIntS pageS with
    | some z => (max 1 z).toNat
    | none => 1
  { errors := depPair.1 ++ arrPair.1 ++ datesTriple.1 ++ stayTriple.1 ++ mpPair.1,
    dep_airports := depPair.2, dest_airports := arrPair.2,
    d_from := datesTriple.2.1, d_to := datesTriple.2.2,
    min_stay := stayTriple.2.1, max_stay := stayTriple.2.2,
    max_price := mpPair.2, one_way := one_way, currency := currency,
    wanted := wanted, page := page }

/-- The route set, in iteration order of the nested loops:
`for dep in dep_airports: for arr in dest_airports:`. -/
def routesOf (p : Prep) : List (S × S) :=
  p.dep_airports.flatMap (fun d => p.dest_airports.map (fun a => (d, a)))

/-- The three shapes of the handler's response: the redisplayed form
with validation errors, the generic search-failure page, or a result
page. -/
inductive Response : Type where
  | validationError : List VErr → Response
  | searchFailed : Response
  | page : ResultPage → Response
deriving DecidableEq, Repr

/-- The POST handler (`app.py` `index`, lines 190–408): validate, stop
on errors, otherwise run the per-route loop of the selected trip type
under one `try`, then sort and paginate. The second component is the
list of routes for which a network request was issued. -/
def indexPost (airports : List Airport) (form : Form)
    (fetch : S × S → Except Unit J) : Response × List (S × S) :=
  let p := validateAndPrepare airports form
  if p.errors ≠ [] then (.validationError p.errors, [])
  else
    match runSearchTrace
        (if p.one_way then processOneWayRoute p.currency p.wanted p.max_price
         else processRoundTripRoute p.currency p.wanted p.max_price)
        fetch (routesOf p) with
    | (.error _, tr) => (.searchFailed, tr)
    | (.ok rs, tr) => (.page (paginate (sortByPrice rs) p.page), tr)

/-- Failure classes of a fare-API request, for stating the retry policy. -/
inductive FetchErr : Type where
  | rateLimit : FetchErr
  | serverError : FetchErr
  | connectionError : FetchErr
  | otherHttp : FetchErr
deriving DecidableEq, Repr

/-- One route fetch as the source performs it (`app.py` lines 293 and
352): a single `requests.get(...)` followed by `raise_for_status()`,
with no retry adapter, session or loop. Abstracting the network as a
sequence of per-attempt outcomes, the source consumes only attempt 0. -/
def requestsGetAttempt (attempts : ℕ → Except FetchErr J) : Except FetchErr J :=
  attempts 0

/-- Modelled from the spec: which failures the claimed policy calls
transient (rate-limit and server-error status classes, connection/DNS
failures). -/
def isTransient : FetchErr → Bool
  | .rateLimit => true
  | .serverError => true
  | .connectionError => true
  | .otherHttp => false

/-- Modelled from the spec: retry transient failures with the given
number of retries remaining (backoff sleeps do not affect the outcome
sequence). -/
def specRetryGo (attempts : ℕ → Except FetchErr J) : ℕ → ℕ → Except FetchErr J
  | i, 0 => attempts i
  | i, n + 1 =>
    match attempts i with
    | .ok v => .ok v
    | .error e => if isTransient e then specRetryGo attempts (i + 1) n else .error e

/-- Modelled from the spec: the claimed failure policy — transient
failures retried up to 3 times before the call raises. -/
def specRetryFetch (attempts : ℕ → Except FetchErr J) : Except FetchErr J :=
  specRetryGo attempts 0 3

/-- Airport codes and country codes for concrete scenarios. -/
def dubS : S := ("DUB").data
def stnS : S := ("STN").data
def ieS : S := ("IE").data
def gbS : S := ("GB").data

/-- A two-airport reference-data snapshot. -/
def apA : List Airport := [⟨dubS, ieS⟩, ⟨stnS, gbS⟩]

/-- A valid one-way search form: DUB → STN on 2025-06-01, currency EUR,
max price `99.997`. -/
def formA : Form :=
  { departures := [dubS], departure_country := none, arrival := some stnS,
    arrival_countries := [], date_from := some (("2025-06-01").data),
    date_to := some (("2025-06-01").data), currency := some eurS,
    max_price := some (("99.997").data), one_way_only := some onS,
    min_stay := none, max_stay := none, out_weekday := none, page := none }

/-- Fields of an upstream one-way fare entry: available, priced 99.996 EUR. -/
def fareAFields : List (S × J) :=
  [(kUnavailable, J.bool false), (kDay, J.str (("2025-06-01").data)),
   (kPrice, J.obj [(kValue, J.num (mkRat 99996 1000)), (kCurrencyCode, J.str eurS)])]

/-- An upstream one-way fare entry: available, priced 99.996 EUR. -/
def fareA : J := J.obj fareAFields

/-- Fields of the same entry with the `unavailable` field absent. -/
def fareNoAvailFields : List (S × J) :=
  [(kDay, J.str (("2025-06-01").data)),
   (kPrice, J.obj [(kValue, J.num (mkRat 99996 1000)), (kCurrencyCode, J.str eurS)])]

/-- The same entry with the `unavailable` field absent. -/
def fareNoAvail : J := J.obj fareNoAvailFields

/-- The same entry with a trailing time component on the date. -/
def fareT : J :=
  J.obj [(kUnavailable, J.bool false), (kDay, J.str (("2025-06-01T00:00:00").data)),
         (kPrice, J.obj [(kValue, J.num (mkRat 99996 1000)), (kCurrencyCode, J.str eurS)])]

/-- A one-way response under the recognized `outbound.fares` envelope. -/
def respA : J := J.obj [(kOutbound, J.obj [(kFares, J.arr [fareA])])]

/-- A one-way response with the fare list under a top-level `fares` key
(the shape the round-trip path recognizes). -/
def respTop : J := J.obj [(kFares, J.arr [fareA])]

/-- A fetch returning `respA` for every route. -/
def fetchA : S × S → Except Unit J := fun _ => .ok respA

/-- A fetch failing on every route. -/
def fetchFail : S × S → Except Unit J := fun _ => .error ()

/-- The record produced from `fareA`: 99.996 formats to `"100.00"`. -/
def recA : FareRecord :=
  { route := mkRoute dubS stnS, out_date := ⟨2025, 6, 1⟩, in_date := none,
    price := 100, currency := eurS }

/-- The result page of the `formA`/`fetchA` search. -/
def pgA : ResultPage := { items := [recA], page := 1, total_pages := 1, total := 1 }

/-- An attempt sequence whose first attempt fails with a rate-limit
error and whose every later attempt succeeds. -/
def attC2 : ℕ → Except FetchErr J := fun n => if n = 0 then .error .rateLimit else .ok (J.obj [])

/-- An empty form, failing validation. -/
def formBad : Form :=
  { departures := [], departure_country := none, arrival := none,
    arrival_countries := [], date_from := none, date_to := none,
    currency := none, max_price := none, one_way_only := some onS,
    min_stay := none, max_stay := none, out_weekday := none, page := none }

/-- `formA` with the weekday filter set to `7`. -/
def formW7 : Form := { formA with out_weekday := some (("7").data) }

/-- `formA` with a non-digit weekday field. -/
def formWneg : Form := { formA with out_weekday := some (("-1").data) }

/-- The empty result page served when every entry is filtered out. -/
def pgEmpty : ResultPage := { items := [], page := 1, total_pages := 1, total := 0 }

theorem pyWeekday_lt_seven (d : Date) : pyWeekday d < 7 :=
  Nat.mod_lt _ (by norm_num)

theorem weekdaySkip_false {w : ℕ} {d : Date} (h : weekdaySkip (some w) d = false) :
    pyWeekday d = w := by
  simpa [weekdaySkip] using h

theorem round2_le (q : ℚ) : round2 q ≤ q + 1 / 200 := by
  have hdpos : (0 : ℤ) < (q.den : ℤ) := by exact_mod_cast q.pos
  have main : ∀ r : ℤ, 2 * r * (q.den : ℤ) ≤ 2 * (q.num * 100) + (q.den : ℤ) →
      (mkRat r 100 : ℚ) ≤ q + 1 / 200 := by
    intro r hkey
    have hdQ : (0 : ℚ) < (q.den : ℚ) := by exact_mod_cast q.pos
    have keyQ : 2 * (r : ℚ) * (q.den : ℚ) ≤ 2 * ((q.num : ℚ) * 100) + (q.den : ℚ) := by
      exact_mod_cast hkey
    rw [Rat.mkRat_eq_div]
    have hq : q = (q.num : ℚ) / (q.den : ℚ) := (Rat.num_div_den q).symm
    rw [hq, div_add_div _ _ (ne_of_gt hdQ) (by norm_num : (200 : ℚ) ≠ 0),
      div_le_div_iff₀ (by norm_num) (by positivity)]
    push_cast
    nlinarith [keyQ, hdQ]
  unfold round2
  apply main
  rw [Int.fdiv_eq_ediv _ (le_of_lt hdpos)]
  have h1 : 0 ≤ (q.num * 100) % (q.den : ℤ) := Int.emod_nonneg _ (by omega)
  have h2 : (q.num * 100) % (q.den : ℤ) < (q.den : ℤ) := Int.emod_lt_of_pos _ hdpos
  have h3 : (q.den : ℤ) * ((q.num * 100) / (q.den : ℤ)) + (q.num * 100) % (q.den : ℤ) =
      q.num * 100 := Int.ediv_add_emod _ _
  split_ifs <;> nlinarith

theorem splitOnChar_ne_nil (sep : Char) (s : List Char) : splitOnChar sep s ≠ [] := by
  induction s with
  | nil => simp [splitOnChar]
  | cons c cs ih =>
    by_cases h : c = sep
    · simp [splitOnChar, h]
    · cases hr : splitOnChar sep cs with
      | nil => simp [splitOnChar, h, hr]
      | cons p ps => simp [splitOnChar, h, hr]

theorem exists_mem_splitOnChar {c sep : Char} (hne : c ≠ sep) :
    ∀ {s : List Char}, c ∈ s → ∃ p ∈ splitOnChar sep s, c ∈ p := by
  intro s
  induction s with
  | nil => intro h; cases h
  | cons d ds ih =>
    intro h
    by_cases hd : d = sep
    · have hcd : c ∈ ds := by
        rcases List.mem_cons.mp h with rfl | h2
        · exact absurd hd hne
        · exact h2
      obtain ⟨p, hp, hcp⟩ := ih hcd
      exact ⟨p, by simp [splitOnChar, hd, hp], hcp⟩
    · cases hr : splitOnChar sep ds with
      | nil => exact absurd hr (splitOnChar_ne_nil sep ds)
      | cons p0 ps =>
        rcases List.mem_cons.mp h with rfl | h2
        · exact ⟨c :: p0, by simp [splitOnChar, hd, hr], List.mem_cons_self _ _⟩
        · obtain ⟨p, hp, hcp⟩ := ih h2
          rw [hr] at hp
          rcases List.mem_cons.mp hp with rfl | hp2
          · exact ⟨d :: p, by simp [splitOnChar, hd, hr], List.mem_cons_of_mem _ hcp⟩
          · exact ⟨p, by simp [splitOnChar, hd, hr, hp2], hcp⟩

theorem strptimeYMD_none_of_mem {c : Char} {s : S} (hc : c ∈ s) (hd : c.isDigit = false)
    (hsep : c ≠ ('-')) : strptimeYMD s = none := by
  obtain ⟨p, hp, hcp⟩ := exists_mem_splitOnChar hsep hc
  have hids : isDigitString p = false := by
    cases hb : p.all Char.isDigit with
    | false => simp [isDigitString, hb]
    | true => exact absurd (List.all_eq_true.mp hb c hcp) (by simp [hd])
  unfold strptimeYMD
  split
  · rename_i ys ms ds heq
    rw [heq] at hp
    rcases List.mem_cons.mp hp with rfl | hp2
    · simp [hids]
    rcases List.mem_cons.mp hp2 with rfl | hp3
    · simp [hids]
    rcases List.mem_cons.mp hp3 with rfl | hp4
    · simp [hids]
    · cases hp4
  · rfl

theorem mem_insertByPrice {x z : FareRecord} :
    ∀ {l : List FareRecord}, z ∈ insertByPrice x l ↔ z = x ∨ z ∈ l := by
  intro l
  induction l with
  | nil => simp [insertByPrice]
  | cons y ys ih =>
    by_cases h : x.price ≤ y.price
    · simp only [insertByPrice, if_pos h, List.mem_cons]
    · simp only [insertByPrice, if_neg h, List.mem_cons, ih]
      tauto

theorem pairwise_insertByPrice {x : FareRecord} {l : List FareRecord}
    (h : l.Pairwise (fun a b => a.price ≤ b.price)) :
    (insertByPrice x l).Pairwise (fun a b => a.price ≤ b.price) := by
  induction l with
  | nil => simp [insertByPrice]
  | cons y ys ih =>
    rw [List.pairwise_cons] at h
    obtain ⟨hy, hys⟩ := h
    by_cases hc : x.price ≤ y.price
    · simp only [insertByPrice, if_pos hc]
      refine List.Pairwise.cons ?_ (List.Pairwise.cons hy hys)
      intro z hz
      rcases List.mem_cons.mp hz with rfl | hz2
      · exact hc
      · exact le_trans hc (hy z hz2)
    · simp only [insertByPrice, if_neg hc]
      refine List.Pairwise.cons ?_ (ih hys)
      intro z hz
      rcases mem_insertByPrice.mp hz with rfl | hz2
      · exact le_of_not_le hc
      · exact hy z hz2

theorem sortByPrice_pairwise (l : List FareRecord) :
    (sortByPrice l).Pairwise (fun a b => a.price ≤ b.price) := by
  induction l with
  | nil => simp [sortByPrice]
  | cons x xs ih => exact pairwise_insertByPrice ih

theorem mem_sortByPrice {z : FareRecord} :
    ∀ {l : List FareRecord}, z ∈ sortByPrice l ↔ z ∈ l := by
  intro l
  induction l with
  | nil => simp [sortByPrice]
  | cons x xs ih =>
    simp only [sortByPrice, mem_insertByPrice, ih, List.mem_cons]

theorem filter_insertByPrice (v : ℚ) (x : FareRecord) :
    ∀ l : List FareRecord,
      (insertByPrice x l).filter (fun r => decide (r.price = v)) =
        (if x.price = v then [x] else []) ++ l.filter (fun r => decide (r.price = v)) := by
  intro l
  induction l with
  | nil => by_cases h : x.price = v <;> simp [insertByPrice, h]
  | cons y ys ih =>
    by_cases hc : x.price ≤ y.price
    · simp only [insertByPrice, if_pos hc]
      by_cases hx : x.price = v <;> simp [List.filter_cons, hx]
    · simp only [insertByPrice, if_neg hc]
      by_cases hy : y.price = v
      · have hx : ¬ x.price = v := by
          intro h
          exact hc (by rw [h, hy])
        simp [List.filter_cons, hy, hx, ih]
      · simp [List.filter_cons, hy, ih]

theorem filter_sortByPrice (v : ℚ) :
    ∀ l : List FareRecord,
      (sortByPrice l).filter (fun r => decide (r.price = v)) =
        l.filter (fun r => decide (r.price = v)) := by
  intro l
  induction l with
  | nil => rfl
  | cons x xs ih =>
    by_cases hx : x.price = v <;>
      simp [sortByPrice, filter_insertByPrice, hx, ih, List.filter_cons]

theorem paginate_items_sublist (rs : List FareRecord) (page : ℕ) :
    (paginate rs page).items.Sublist rs := by
  unfold paginate
  exact (List.take_sublist _ _).trans (List.drop_sublist _ _)

theorem applyPriceFilters_ok_some {cur : S} {mp : Option ℚ} {pj : J} {rc : S} {eff : ℚ}
    (h : applyPriceFilters cur mp pj rc = .ok (some eff)) :
    ∀ m, mp = some m → eff ≤ m := by
  intro m hm
  subst hm
  unfold applyPriceFilters at h
  repeat' split at h
  all_goals simp_all

theorem normalizeOneWayFare_ok_some {cur : S} {w : Option ℕ} {mp : Option ℚ} {dep arr : S}
    {fare : J} {rec : FareRecord}
    (h : normalizeOneWayFare cur w mp dep arr fare = .ok (some rec)) :
    rec.currency = cur ∧ (∀ m, mp = some m → rec.price ≤ m + 1 / 200) ∧
      (∀ n, w = some n → n < 7) := by
  unfold normalizeOneWayFare at h
  cases fare with
  | null => simp at h
  | bool b => simp at h
  | num q => simp at h
  | str s => simp at h
  | arr xs => simp at h
  | obj fs =>
    by_cases hskip : oneWayAvailSkip (J.obj fs) = true
    · rw [if_pos hskip] at h; simp at h
    · rw [if_neg hskip] at h
      unfold oneWayRest at h
      dsimp only at h
      by_cases hday : pyTruthy (jGetD (J.obj fs) kDay J.null) = true
      case neg => rw [if_neg hday] at h; simp at h
      case pos =>
        rw [if_pos hday] at h
        cases hpo : jGetD (J.obj fs) kPrice (J.obj []) with
        | null => rw [hpo] at h; simp at h
        | bool b => rw [hpo] at h; simp at h
        | num q => rw [hpo] at h; simp at h
        | str s => rw [hpo] at h; simp at h
        | arr xs => rw [hpo] at h; simp at h
        | obj pf =>
          rw [hpo] at h
          dsimp only at h
          cases hrc : oneWayRawCurr (J.obj pf) cur with
          | error e => rw [hrc] at h; simp at h
          | ok rcur =>
            rw [hrc] at h
            dsimp only at h
            cases hdj : jGetD (J.obj fs) kDay J.null with
            | null => rw [hdj] at h; simp at h
            | bool b => rw [hdj] at h; simp at h
            | num q => rw [hdj] at h; simp at h
            | arr xs => rw [hdj] at h; simp at h
            | obj fs2 => rw [hdj] at h; simp at h
            | str s =>
              rw [hdj] at h
              dsimp only at h
              cases hsp : strptimeYMD s with
              | none => rw [hsp] at h; simp at h
              | some d =>
                rw [hsp] at h
                dsimp only at h
                cases hrp : jLookup (J.obj pf) kValue with
                | none => rw [hrp] at h; simp at h
                | some pj =>
                  rw [hrp] at h
                  dsimp only at h
                  by_cases hnull : isNullJ pj = true
                  · rw [if_pos hnull] at h; simp at h
                  · rw [if_neg hnull] at h
                    by_cases hwk : weekdaySkip w d = true
                    · rw [if_pos hwk] at h; simp at h
                    · rw [if_neg hwk] at h
                      cases happ : applyPriceFilters cur mp pj rcur with
                      | error e => rw [happ] at h; simp at h
                      | ok o =>
                        rw [happ] at h
                        cases o with
                        | none => simp at h
                        | some eff =>
                          simp only [Except.ok.injEq, Option.some.injEq] at h
                          subst h
                          refine ⟨rfl, ?_, ?_⟩
                          · intro m hm
                            have h1 := applyPriceFilters_ok_some happ m hm
                            have h2 := round2_le eff
                            dsimp only
                            linarith
                          · intro n hn
                            subst hn
                            have hwd := weekdaySkip_false
                              (by simpa using hwk)
                            rw [← hwd]
                            exact pyWeekday_lt_seven d

theorem normalizeRoundTripFare_ok_some {cur : S} {w : Option ℕ} {mp : Option ℚ} {dep arr : S}
    {combo : J} {rec : FareRecord}
    (h : normalizeRoundTripFare cur w mp dep arr combo = .ok (some rec)) :
    rec.currency = cur ∧ (∀ m, mp = some m → rec.price ≤ m + 1 / 200) ∧
      (∀ n, w = some n → n < 7) := by
  unfold normalizeRoundTripFare at h
  cases combo with
  | null => simp at h
  | bool b => simp at h
  | num q => simp at h
  | str s => simp at h
  | arr xs => simp at h
  | obj fs =>
    cases hld1 : legDate (jLookup (J.obj fs) kOutbound) with
    | error e => rw [hld1] at h; simp at h
    | ok od? =>
      rw [hld1] at h
      dsimp only at h
      cases hld2 : legDate (jLookup (J.obj fs) kInbound) with
      | error e => rw [hld2] at h; simp at h
      | ok id? =>
        rw [hld2] at h
        dsimp only at h
        cases od? with
        | none => simp at h
        | some od =>
          cases id? with
          | none => simp at h
          | some idt =>
            dsimp only at h
            by_cases hwk : weekdaySkip w od = true
            · rw [if_pos hwk] at h; simp at h
            · rw [if_neg hwk] at h
              cases hpr : rtPrice (J.obj fs) cur with
              | error e => rw [hpr] at h; simp at h
              | ok pr =>
                obtain ⟨pj, rcur⟩ := pr
                rw [hpr] at h
                dsimp only at h
                by_cases hnull : isNullJ pj = true
                · rw [if_pos hnull] at h; simp at h
                · rw [if_neg hnull] at h
                  cases happ : applyPriceFilters cur mp pj rcur with
                  | error e => rw [happ] at h; simp at h
                  | ok o =>
                    rw [happ] at h
                    cases o with
                    | none => simp at h
                    | some eff =>
                      simp only [Except.ok.injEq, Option.some.injEq] at h
                      subst h
                      refine ⟨rfl, ?_, ?_⟩
                      · intro m hm
                        have h1 := applyPriceFilters_ok_some happ m hm
                        have h2 := round2_le eff
                        dsimp only
                        linarith
                      · intro n hn
                        subst hn
                        have hwd := weekdaySkip_false (by simpa using hwk)
                        rw [← hwd]
                        exact pyWeekday_lt_seven od

theorem collectFares_ok_mem {f : J → Except Unit (Option FareRecord)} :
    ∀ {l : List J} {rs : List FareRecord}, collectFares f l = .ok rs →
      ∀ {rec : FareRecord}, rec ∈ rs → ∃ x ∈ l, f x = .ok (some rec) := by
  intro l
  induction l with
  | nil =>
    intro rs h rec hm
    simp only [collectFares, Except.ok.injEq] at h
    subst h
    cases hm
  | cons x xs ih =>
    intro rs h rec hm
    unfold collectFares at h
    cases hfx : f x with
    | error e => rw [hfx] at h; simp at h
    | ok r =>
      rw [hfx] at h
      cases hcf : collectFares f xs with
      | error e => rw [hcf] at h; simp at h
      | ok rest =>
        rw [hcf] at h
        simp only [Except.ok.injEq] at h
        subst h
        rcases List.mem_append.mp hm with hm1 | hm2
        · cases r with
          | none => simp at hm1
          | some r0 =>
            simp only [Option.toList_some, List.mem_singleton] at hm1
            subst hm1
            exact ⟨x, List.mem_cons_self _ _, hfx⟩
        · obtain ⟨y, hy, hfy⟩ := ih hcf hm2
          exact ⟨y, List.mem_cons_of_mem _ hy, hfy⟩

theorem processOneWayRoute_ok_mem {cur : S} {w : Option ℕ} {mp : Option ℚ}
    {r : S × S} {data : J} {fs : List FareRecord}
    (h : processOneWayRoute cur w mp r data = .ok fs) {rec : FareRecord} (hm : rec ∈ fs) :
    ∃ fare, normalizeOneWayFare cur w mp r.1 r.2 fare = .ok (some rec) := by
  unfold processOneWayRoute at h
  cases hex : extractOneWayFareList data with
  | error e => rw [hex] at h; simp at h
  | ok fares =>
    rw [hex] at h
    obtain ⟨x, _, hx⟩ := collectFares_ok_mem h hm
    exact ⟨x, hx⟩

theorem processRoundTripRoute_ok_mem {cur : S} {w : Option ℕ} {mp : Option ℚ}
    {r : S × S} {data : J} {fs : List FareRecord}
    (h : processRoundTripRoute cur w mp r data = .ok fs) {rec : FareRecord} (hm : rec ∈ fs) :
    ∃ fare, normalizeRoundTripFare cur w mp r.1 r.2 fare = .ok (some rec) := by
  unfold processRoundTripRoute at h
  cases hex : extractRoundTripFareList data with
  | error e => rw [hex] at h; simp at h
  | ok fares =>
    rw [hex] at h
    obtain ⟨x, _, hx⟩ := collectFares_ok_mem h hm
    exact ⟨x, hx⟩

theorem runSearchTrace_ok_mem {proc : S × S → J → Except Unit (List FareRecord)}
    {fetch : S × S → Except Unit J} :
    ∀ {routes : List (S × S)} {rs : List FareRecord},
      (runSearchTrace proc fetch routes).1 = .ok rs →
      ∀ {rec : FareRecord}, rec ∈ rs →
        ∃ r ∈ routes, ∃ d, fetch r = .ok d ∧ ∃ fs, proc r d = .ok fs ∧ rec ∈ fs := by
  intro routes
  induction routes with
  | nil =>
    intro rs h rec hm
    simp only [runSearchTrace, Except.ok.injEq] at h
    subst h
    cases hm
  | cons r0 rest ih =>
    intro rs h rec hm
    unfold runSearchTrace at h
    cases hf : fetch r0 with
    | error e => rw [hf] at h; simp at h
    | ok data =>
      rw [hf] at h
      dsimp only at h
      cases hp : proc r0 data with
      | error e => rw [hp] at h; simp at h
      | ok fs0 =>
        rw [hp] at h
        dsimp only at h
        cases hrt : runSearchTrace proc fetch rest with
        | mk res tr =>
          rw [hrt] at h
          cases res with
          | error e => simp at h
          | ok restRs =>
            simp only [Except.ok.injEq] at h
            subst h
            rcases List.mem_append.mp hm with h1 | h2
            · exact ⟨r0, List.mem_cons_self _ _, data, hf, fs0, hp, h1⟩
            · have hok : (runSearchTrace proc fetch rest).1 = .ok restRs := by rw [hrt]
              obtain ⟨r1, hr1, d1, hd1, fs1, hfs1, hm1⟩ := ih hok h2
              exact ⟨r1, List.mem_cons_of_mem _ hr1, d1, hd1, fs1, hfs1, hm1⟩

theorem runSearchTrace_error (proc : S × S → J → Except Unit (List FareRecord))
    (fetch : S × S → Except Unit J) (r : S × S) :
    ∀ {routes : List (S × S)}, r ∈ routes → fetch r = .error () →
      (runSearchTrace proc fetch routes).1 = .error () := by
  intro routes
  induction routes with
  | nil => intro h; cases h
  | cons r0 rest ih =>
    intro hmem hf
    rcases List.mem_cons.mp hmem with rfl | h2
    · simp [runSearchTrace, hf]
    · cases hf0 : fetch r0 with
      | error e => cases e; simp [runSearchTrace, hf0]
      | ok data =>
        cases hp : proc r0 data with
        | error e => cases e; simp [runSearchTrace, hf0, hp]
        | ok fs0 =>
          have hrec := ih h2 hf
          cases hrt : runSearchTrace proc fetch rest with
          | mk res tr =>
            rw [hrt] at hrec
            simp only at hrec
            subst hrec
            simp [runSearchTrace, hf0, hp, hrt]

theorem indexPost_page_mem {airports : List Airport} {form : Form}
    {fetch : S × S → Except Unit J} {pg : ResultPage} {tr : List (S × S)} {rec : FareRecord}
    (h : indexPost airports form fetch = (.page pg, tr)) (hm : rec ∈ pg.items) :
    rec.currency = (validateAndPrepare airports form).currency ∧
      (∀ m, (validateAndPrepare airports form).max_price = some m →
        rec.price ≤ m + 1 / 200) ∧
      (∀ n, (validateAndPrepare airports form).wanted = some n → n < 7) := by
  unfold indexPost at h
  dsimp only at h
  set prep := validateAndPrepare airports form with hprep
  by_cases herr : prep.errors ≠ []
  · rw [if_pos herr] at h; simp at h
  · rw [if_neg herr] at h
    set proc := (if prep.one_way = true then
        processOneWayRoute prep.currency prep.wanted prep.max_price
      else processRoundTripRoute prep.currency prep.wanted prep.max_price) with hproc0
    cases hrt : runSearchTrace proc fetch (routesOf prep) with
    | mk res tr2 =>
      rw [hrt] at h
      cases res with
      | error e => simp at h
      | ok rs =>
        simp only [Prod.mk.injEq, Response.page.injEq] at h
        obtain ⟨hpg, htr⟩ := h
        subst hpg
        have hmem2 : rec ∈ sortByPrice rs := (paginate_items_sublist _ _).subset hm
        have hmem3 : rec ∈ rs := mem_sortByPrice.mp hmem2
        have hok : (runSearchTrace proc fetch (routesOf prep)).1 = .ok rs := by rw [hrt]
        obtain ⟨r, hr, d, hfd, fs, hproc, hmf⟩ := runSearchTrace_ok_mem hok hmem3
        rw [hproc0] at hproc
        by_cases how : prep.one_way = true
        · rw [if_pos how] at hproc
          obtain ⟨fare, hn⟩ := processOneWayRoute_ok_mem hproc hmf
          exact normalizeOneWayFare_ok_some hn
        · rw [if_neg how] at hproc
          obtain ⟨fare, hn⟩ := processRoundTripRoute_ok_mem hproc hmf
          exact normalizeRoundTripFare_ok_some hn

/-- Claim C4: after aggregation the ordering is ascending in the parsed
price — for every adjacent pair `(a, b)` of a ResultPage's items,
`parse(a.price) ≤ parse(b.price)` (`FareRecord.price` is that parsed
value) — and the sort is stable: at every price value, the sorted
list's records appear in their original discovery order (route
iteration order × upstream list order, the order `runSearchTrace`
collects them in). -/
theorem results_sorted_and_stable :
    ∀ (rs : List FareRecord) (page : ℕ),
      (sortByPrice rs).Pairwise (fun a b => a.price ≤ b.price) ∧
      (paginate (sortByPrice rs) page).items.Pairwise (fun a b => a.price ≤ b.price) ∧
      ∀ v : ℚ,
        (sortByPrice rs).filter (fun r => decide (r.price = v)) =
          rs.filter (fun r => decide (r.price = v)) :=
  fun rs page =>
    ⟨sortByPrice_pairwise rs,
     (sortByPrice_pairwise rs).sublist (paginate_items_sublist _ _),
     fun v => filter_sortByPrice v rs⟩

/-- Claim C5: `total_pages = max(1, ceil(total/48))` — in particular 1
when the total is 0 — and the served page is the requested page clamped
into `[1, total_pages]`; an out-of-range request (page 0 or a huge
page) yields the nearest valid page's structure, never an error. The
two final inequalities state that `(total + 47) / 48` is the ceiling of
`total / 48`. -/
theorem pagination_total_pages_and_clamp :
    ∀ (rs : List FareRecord) (page : ℕ),
      (paginate rs page).total_pages = max 1 ((rs.length + 47) / 48) ∧
      (paginate rs page).total = rs.length ∧
      (paginate rs page).page = min (max 1 page) (paginate rs page).total_pages ∧
      1 ≤ (paginate rs page).page ∧
      (paginate rs page).page ≤ (paginate rs page).total_pages ∧
      rs.length ≤ 48 * (paginate rs page).total_pages ∧
      48 * ((paginate rs page).total_pages - 1) < max 1 rs.length ∧
      (paginate rs page).items =
        (rs.drop (((paginate rs page).page - 1) * 48)).take 48 := by
  intro rs page
  refine ⟨rfl, rfl, rfl, ?_, ?_, ?_, ?_, rfl⟩ <;> (simp only [paginate]; omega)

/-- Claim C9: whenever the validation phase produces at least one
error, the handler returns the validation-error response and its
network trace is empty — no route fetch is issued, for every failing
input. -/
theorem validation_blocks_network :
    ∀ (airports : List Airport) (form : Form) (fetch : S × S → Except Unit J),
      (validateAndPrepare airports form).errors ≠ [] →
      indexPost airports form fetch =
        (.validationError (validateAndPrepare airports form).errors, []) := by
  intro airports form fetch herr
  unfold indexPost
  dsimp only
  rw [if_pos herr]

set_option maxRecDepth 4000 in
/-- Witness for C9: the empty form fails validation and the handler
issues no fetch. -/
theorem validation_blocks_network_witness :
    (validateAndPrepare apA formBad).errors ≠ [] ∧
    indexPost apA formBad fetchFail =
      (.validationError (validateAndPrepare apA formBad).errors, []) :=
  ⟨by decide, validation_blocks_network apA formBad fetchFail (by decide)⟩

/-- Claim C6: if any route's fetch fails, the whole search aborts with
the generic search-failed response — no partial ResultPage is produced
and fares collected from other routes are discarded (the response
carries no records). -/
theorem route_failure_aborts_search :
    ∀ (airports : List Airport) (form : Form) (fetch : S × S → Except Unit J) (r : S × S),
      (validateAndPrepare airports form).errors = [] →
      r ∈ routesOf (validateAndPrepare airports form) →
      fetch r = .error () →
      (indexPost airports form fetch).1 = Response.searchFailed := by
  intro airports form fetch r herr hmem hf
  unfold indexPost
  dsimp only
  rw [if_neg (by simp [herr])]
  set prep := validateAndPrepare airports form with hprep
  set proc := (if prep.one_way = true then
      processOneWayRoute prep.currency prep.wanted prep.max_price
    else processRoundTripRoute prep.currency prep.wanted prep.max_price) with hproc0
  have herror := runSearchTrace_error proc fetch r hmem hf
  cases hrt : runSearchTrace proc fetch (routesOf prep) with
  | mk res tr =>
    rw [hrt] at herror
    simp only at herror
    subst herror
    simp [hrt]

set_option maxRecDepth 4000 in
/-- Witness for C6: a valid search with a failing fetch yields the
search-failed response. -/
theorem route_failure_aborts_search_witness :
    (validateAndPrepare apA formA).errors = [] ∧
    (dubS, stnS) ∈ routesOf (validateAndPrepare apA formA) ∧
    (indexPost apA formA fetchFail).1 = Response.searchFailed :=
  ⟨by decide, by decide,
   route_failure_aborts_search apA formA fetchFail (dubS, stnS) (by decide) (by decide) rfl⟩

/-- Claim C2 counterexample: an attempt history whose first attempt
fails with a rate-limit error and whose every retry would succeed: the
source's fetch (a single `requests.get`) raises, while the claimed
retry-up-to-3-times policy would return the body — a single transient
failure does immediately propagate. -/
theorem fetch_no_retry_cex :
    requestsGetAttempt attC2 = .error FetchErr.rateLimit ∧
    isTransient FetchErr.rateLimit = true ∧
    specRetryFetch attC2 = .ok (J.obj []) :=
  ⟨rfl, rfl, rfl⟩

/-- Claim C2 (amended): no retry is performed — a route fetch consumes
only attempt 0 of the attempt history, so the first failure of any
class immediately propagates and later attempts are never consulted. -/
theorem fetch_single_attempt :
    ∀ (attempts : ℕ → Except FetchErr J) (e : FetchErr),
      attempts 0 = .error e →
      requestsGetAttempt attempts = .error e ∧
      ∀ attempts2 : ℕ → Except FetchErr J, attempts2 0 = attempts 0 →
        requestsGetAttempt attempts2 = .error e := by
  intro attempts e h
  refine ⟨h, ?_⟩
  intro a2 h2
  unfold requestsGetAttempt
  rw [h2, h]

/-- Witness for C2 (amended) at the concrete attempt history. -/
theorem fetch_single_attempt_witness :
    requestsGetAttempt attC2 = .error FetchErr.rateLimit :=
  (fetch_single_attempt attC2 FetchErr.rateLimit rfl).1

set_option maxRecDepth 4000 in
/-- Claim C3 counterexample: in the concrete search (`formA`, currency
EUR, max_price 99.997) the upstream fare 99.996 passes the unrounded
filter, but its 2-decimal formatted price parses back to 100.00, which
exceeds max_price — the claim as stated fails on the code. -/
theorem formatted_price_exceeds_max_cex :
    indexPost apA formA fetchA = (Response.page pgA, [(dubS, stnS)]) ∧
    (validateAndPrepare apA formA).max_price = some (mkRat 99997 1000) ∧
    recA ∈ pgA.items ∧ ¬(recA.price ≤ mkRat 99997 1000) :=
  ⟨by decide, by decide, by decide, by decide⟩

/-- Claim C3 (amended): every record of a served result page has its
currency equal to the requested target currency, and when a max_price
is set the unrounded converted value passes the filter, so the value
parsed back from the 2-decimal formatted price string can exceed
max_price only by the final rounding: `parse(price) ≤ max_price + 1/200`. -/
theorem result_currency_and_price_bound :
    ∀ (airports : List Airport) (form : Form) (fetch : S × S → Except Unit J)
      (pg : ResultPage) (tr : List (S × S)) (rec : FareRecord),
      indexPost airports form fetch = (.page pg, tr) → rec ∈ pg.items →
      rec.currency = (validateAndPrepare airports form).currency ∧
      ∀ m, (validateAndPrepare airports form).max_price = some m →
        rec.price ≤ m + 1 / 200 := by
  intro airports form fetch pg tr rec h hm
  have hfacts := indexPost_page_mem h hm
  exact ⟨hfacts.1, hfacts.2.1⟩

set_option maxRecDepth 4000 in
/-- Witness for C3 (amended) at the concrete search. -/
theorem result_currency_and_price_bound_witness :
    recA.currency = (validateAndPrepare apA formA).currency ∧
    recA.price ≤ mkRat 99997 1000 + 1 / 200 := by
  have h := result_currency_and_price_bound apA formA fetchA pgA [(dubS, stnS)] recA
    (by decide) (by decide)
  exact ⟨h.1, h.2 (mkRat 99997 1000) (by decide)⟩

/-- Claim C10: the weekday form field is never validated — it cannot
influence the validation errors; any all-digit string is accepted and
becomes the filter value; a filter value of 7 or more can match no
date's weekday (`pyWeekday` is always < 7), so any served page is
empty; and any non-digit string (including negatives) silently
disables the filter instead of erroring. -/
theorem weekday_filter_never_validated :
    (∀ (airports : List Airport) (form : Form) (s : Option S),
      (validateAndPrepare airports { form with out_weekday := s }).errors =
        (validateAndPrepare airports form).errors) ∧
    (∀ (airports : List Airport) (form : Form),
      isDigitString ((form.out_weekday).getD []) = true →
      (validateAndPrepare airports form).wanted =
        some (digitsToNat ((form.out_weekday).getD []))) ∧
    (∀ (airports : List Airport) (form : Form) (fetch : S × S → Except Unit J)
        (pg : ResultPage) (tr : List (S × S)) (w : ℕ),
      (validateAndPrepare airports form).wanted = some w → 7 ≤ w →
      indexPost airports form fetch = (.page pg, tr) → pg.items = []) ∧
    (∀ (airports : List Airport) (form : Form),
      isDigitString ((form.out_weekday).getD []) = false →
      (validateAndPrepare airports form).wanted = none) := by
  refine ⟨?_, ?_, ?_, ?_⟩
  · intro airports form s
    rfl
  · intro airports form hdig
    simp [validateAndPrepare, hdig]
  · intro airports form fetch pg tr w hw h7 hpost
    cases hitems : pg.items with
    | nil => rfl
    | cons r t =>
      have hmem : r ∈ pg.items := by rw [hitems]; exact List.mem_cons_self _ _
      have hlt := (indexPost_page_mem hpost hmem).2.2 w hw
      omega
  · intro airports form hdig
    simp [validateAndPrepare, hdig]

set_option maxRecDepth 4000 in
/-- Witness for C10: the weekday field does not change validation; the
digit string `"7"` is accepted and empties the concrete search (June 1
2025 is a Sunday, weekday 6); the non-digit string `"-1"` disables the
filter. -/
theorem weekday_filter_never_validated_witness :
    (validateAndPrepare apA { formA with out_weekday := some (("3").data) }).errors =
      (validateAndPrepare apA formA).errors ∧
    (validateAndPrepare apA formW7).wanted = some 7 ∧
    pgEmpty.items = [] ∧
    (validateAndPrepare apA formWneg).wanted = none := by
  refine ⟨weekday_filter_never_validated.1 apA formA (some (("3").data)),
    weekday_filter_never_validated.2.1 apA formW7 (by decide), ?_,
    weekday_filter_never_validated.2.2.2 apA formWneg (by decide)⟩
  exact weekday_filter_never_validated.2.2.1 apA formW7 fetchA pgEmpty [(dubS, stnS)] 7
    (by decide) (by norm_num) (by decide)

set_option maxRecDepth 4000 in
/-- Claim C1 counterexample: a one-way entry that carries a price but
lacks the `unavailable` field is skipped — the availability default is
skip — while the identical entry explicitly marked available is
normalized into a record. -/
theorem absent_unavailable_skipped_cex :
    oneWayAvailSkip fareNoAvail = true ∧
    normalizeOneWayFare eurS none none dubS stnS fareNoAvail = .ok none ∧
    normalizeOneWayFare eurS none none dubS stnS fareA = .ok (some recA) :=
  ⟨by decide, by decide, by decide⟩

/-- Claim C1 (amended): the one-way availability gate skips an entry
unless its `unavailable` field is present and falsy and its price is
not None; in particular an entry whose `unavailable` field is absent
is always skipped, and an entry explicitly marked available with a
price present proceeds to date/price extraction (`oneWayRest`). -/
theorem oneWay_availability_gate :
    ∀ (cur : S) (w : Option ℕ) (mp : Option ℚ) (dep arr : S) (fs : List (S × J)),
      (lookupField fs kUnavailable = none →
        normalizeOneWayFare cur w mp dep arr (J.obj fs) = .ok none) ∧
      (∀ v, lookupField fs kUnavailable = some v → pyTruthy v = false →
        pyIsNoneOpt (lookupField fs kPrice) = false →
        normalizeOneWayFare cur w mp dep arr (J.obj fs) =
          oneWayRest cur w mp dep arr (J.obj fs)) := by
  intro cur w mp dep arr fs
  constructor
  · intro habs
    unfold normalizeOneWayFare
    have hskip : oneWayAvailSkip (J.obj fs) = true := by
      simp [oneWayAvailSkip, jGetD, jLookup, habs, pyTruthy]
    rw [if_pos hskip]
  · intro v hv hfalse hprice
    unfold normalizeOneWayFare
    have hskip : oneWayAvailSkip (J.obj fs) = false := by
      simp [oneWayAvailSkip, jGetD, jLookup, hv, hfalse, hprice]
    rw [if_neg (by simp [hskip])]

set_option maxRecDepth 4000 in
/-- Witness for C1 (amended) at the concrete entries. -/
theorem oneWay_availability_gate_witness :
    normalizeOneWayFare eurS none none dubS stnS (J.obj fareNoAvailFields) = .ok none ∧
    normalizeOneWayFare eurS none none dubS stnS (J.obj fareAFields) =
      oneWayRest eurS none none dubS stnS (J.obj fareAFields) :=
  ⟨(oneWay_availability_gate eurS none none dubS stnS fareNoAvailFields).1 rfl,
   (oneWay_availability_gate eurS none none dubS stnS fareAFields).2 (J.bool false) rfl
     (by decide) (by decide)⟩

set_option maxRecDepth 4000 in
/-- Claim C7 counterexample: a well-formed one-way response presenting
its per-day fare list under a top-level `fares` envelope yields an
empty extraction — its entries are never processed — while the single
recognized `outbound.fares` envelope yields the list. -/
theorem oneWay_envelope_single_shape_cex :
    extractOneWayFareList respTop = .ok [] ∧
    extractOneWayFareList respA = .ok [fareA] :=
  ⟨rfl, rfl⟩

/-- Claim C7 (amended): one-way extraction consults exactly one
envelope shape: for every fare list `xs`, a response
`{outbound: {fares: xs}}` extracts `xs`, while the alternative
envelope `{fares: xs}` (the first shape the round-trip path accepts)
extracts the empty list. -/
theorem oneWay_envelope_extraction :
    ∀ xs : List J,
      extractOneWayFareList (J.obj [(kOutbound, J.obj [(kFares, J.arr xs)])]) = .ok xs ∧
      extractOneWayFareList (J.obj [(kFares, J.arr xs)]) = .ok [] :=
  fun xs => ⟨rfl, rfl⟩

set_option maxRecDepth 4000 in
/-- Claim C8 counterexample: a one-way entry whose `day` field carries
a trailing time component is skipped (the one-way path parses strictly
and never truncates), while the same entry with a bare date is
normalized; the truncating parser `parse_iso_date` exists in the
source but serves only the round-trip path. -/
theorem oneWay_trailing_time_skipped_cex :
    normalizeOneWayFare eurS none none dubS stnS fareT = .ok none ∧
    normalizeOneWayFare eurS none none dubS stnS fareA = .ok (some recA) ∧
    parse_iso_date (J.str (("2025-06-01T00:00:00").data)) = .ok (some ⟨2025, 6, 1⟩) :=
  ⟨by decide, by decide, by decide⟩

/-- Claim C8 (amended): the one-way date comes only from the `day`
field, parsed strictly as `YYYY-MM-DD`; a trailing time component is
not tolerated — an entry whose `day` string contains a `T` is never
normalized into a record. -/
theorem oneWay_strict_date_parse :
    ∀ (cur : S) (w : Option ℕ) (mp : Option ℚ) (dep arr : S) (fare : J) (s : S),
      jGetD fare kDay J.null = J.str s → ('T') ∈ s →
      ∀ rec : FareRecord, normalizeOneWayFare cur w mp dep arr fare ≠ .ok (some rec) := by
  intro cur w mp dep arr fare s hday hT rec hcontra
  have hsp : strptimeYMD s = none :=
    strptimeYMD_none_of_mem hT (by decide) (by decide)
  unfold normalizeOneWayFare at hcontra
  cases fare with
  | null => simp at hcontra
  | bool b => simp at hcontra
  | num q => simp at hcontra
  | str s2 => simp at hcontra
  | arr xs => simp at hcontra
  | obj fs =>
    by_cases hskip : oneWayAvailSkip (J.obj fs) = true
    · rw [if_pos hskip] at hcontra; simp at hcontra
    · rw [if_neg hskip] at hcontra
      unfold oneWayRest at hcontra
      dsimp only at hcontra
      rw [hday] at hcontra
      by_cases ht : pyTruthy (J.str s) = true
      · rw [if_pos ht] at hcontra
        cases hpo : jGetD (J.obj fs) kPrice (J.obj []) with
        | null => rw [hpo] at hcontra; simp at hcontra
        | bool b => rw [hpo] at hcontra; simp at hcontra
        | num q => rw [hpo] at hcontra; simp at hcontra
        | str s3 => rw [hpo] at hcontra; simp at hcontra
        | arr xs => rw [hpo] at hcontra; simp at hcontra
        | obj pf =>
          rw [hpo] at hcontra
          dsimp only at hcontra
          cases hrc : oneWayRawCurr (J.obj pf) cur with
          | error e => rw [hrc] at hcontra; simp at hcontra
          | ok rcur =>
            rw [hrc] at hcontra
            dsimp only at hcontra
            rw [hsp] at hcontra
            simp at hcontra
      · rw [if_neg ht] at hcontra
        simp at hcontra

set_option maxRecDepth 4000 in
/-- Witness for C8 (amended) at the concrete entry with a trailing
time component. -/
theorem oneWay_strict_date_parse_witness :
    normalizeOneWayFare eurS none none dubS stnS fareT ≠ .ok (some recA) :=
  oneWay_strict_date_parse eurS none none dubS stnS fareT
    (("2025-06-01T00:00:00").data) rfl (by decide) recA
